import Mathlib

set_option linter.unusedVariables false

/-!
Shallow embedding of the Maison Cilia booking backend.

The repository has two alternate implementations of the same service:
`src/server.js` (MongoDB-backed; referred to below as the *Mongo variant*)
and `src/unnamed/part_000` (flat-JSON-file-backed; the *file variant*).
Definitions suffixed `Mongo` embed `src/server.js` handlers; definitions
suffixed `File` embed `src/unnamed/part_000` handlers; unsuffixed shared
definitions embed logic that is literally identical in both files.

A store is the list of persisted slots: `data.slots` in the file variant,
the `Slot` collection in the Mongo variant.  JavaScript falsiness of the
request-body strings (`undefined` or `""`) is modelled by the empty string.
-/

/-- The embedded client record `{firstName, lastName, email, service}`
stored on a booked slot (`SlotSchema.client`, src/server.js lines 52-57). -/
structure Client where
  firstName : String
  lastName : String
  email : String
  service : String
deriving Repr, DecidableEq

/-- A bookable slot (`SlotSchema`, src/server.js lines 48-58; the objects
in `data.slots` in the file variant). `client` is `none` when no client
record is stored. -/
structure Slot where
  date : String
  time : String
  booked : Bool
  client : Option Client
deriving Repr, DecidableEq

/-- The persisted collection of slots. -/
abbrev Store := List Slot

/-- The reservation intent `{date, time, firstName, lastName, email, service}`
read from the request body of POST /create-checkout and POST /confirm.
A field missing from the body is the empty string (JS falsy). -/
structure Intent where
  date : String
  time : String
  firstName : String
  lastName : String
  email : String
  service : String
deriving Repr, DecidableEq

/-- Environment configuration (`FRONTEND_URL`, `ADMIN_PASSWORD`). -/
structure Config where
  frontendUrl : String
  adminPassword : String
deriving Repr, DecidableEq

/-- The key test `s.date === date && s.time === time` used by
`Slot.findOne({date, time})` (Mongo) and `data.slots.find(...)` (file). -/
def keyMatch (date time : String) (s : Slot) : Bool :=
  s.date == date && s.time == time

/-- Lookup by (date,time): `Slot.findOne({date, time})` in the Mongo
variant (unique index ⇒ at most one match), `data.slots.find(...)` in the
file variant (first match in stored order). -/
def findSlot (store : Store) (date time : String) : Option Slot :=
  store.find? (keyMatch date time)

/-- The client record built at confirm time:
`{ firstName, lastName, email, service }` (src/server.js line 185). -/
def clientOf (i : Intent) : Client :=
  ⟨i.firstName, i.lastName, i.email, i.service⟩

/-- The in-place mutation `slot.booked = true; slot.client = {...}`
(src/server.js lines 184-185, part_000 lines 144-145). -/
def bookSlot (i : Intent) (s : Slot) : Slot :=
  { s with booked := true, client := some (clientOf i) }

/-- Apply `f` to the first slot matching the key, leaving the rest
unchanged: this is what persisting the mutated document found by
`findOne`/`find` does to the stored collection. -/
def updateFirst (date time : String) (f : Slot → Slot) : Store → Store
  | [] => []
  | s :: rest =>
    if keyMatch date time s then f s :: rest
    else s :: updateFirst date time f rest

/-- Outcome of the awaited `mailer.sendMail` call, an external effect. -/
inductive MailOutcome
  | delivered
  | transportError
deriving Repr, DecidableEq

/-- HTTP response of POST /confirm.  Both failure causes (slot missing,
slot already booked) go through the single statement
`res.status(400).json({ error: "Créneau indisponible" })`
(src/server.js lines 180-182, part_000 lines 139-141), embedded as the
single constructor `unavailable`. -/
inductive ConfirmResponse
  | ok
  | unavailable
deriving Repr, DecidableEq

/-- Result of one POST /confirm call: the persisted store afterwards, the
HTTP response, and whether a confirmation email send was attempted. -/
structure ConfirmOutcome where
  store : Store
  response : ConfirmResponse
  mailAttempted : Bool
deriving Repr, DecidableEq

/-- POST /confirm (src/server.js lines 174-218, part_000 lines 131-180;
the handler logic is identical in both variants):
look up the slot by (date,time); if absent or already booked respond 400
"Créneau indisponible"; otherwise set `booked = true` and
`client = {firstName, lastName, email, service}`, persist, then — only if
`email` is truthy — attempt the confirmation email inside try/catch
(a transport error is logged and swallowed, so `mail` does not influence
the store or the response), and respond `{ success: true }`. -/
def confirm (store : Store) (i : Intent) (mail : MailOutcome) : ConfirmOutcome :=
  match findSlot store i.date i.time with
  | none => ⟨store, .unavailable, false⟩
  | some s =>
    if s.booked then ⟨store, .unavailable, false⟩
    else
      ⟨updateFirst i.date i.time (bookSlot i) store, .ok, i.email != ""⟩

example :
    (confirm [⟨"2024-05-01", "10:00", false, none⟩]
      ⟨"2024-05-01", "10:00", "Ana", "B", "a@b.com", "Manicure"⟩
      .delivered).response = .ok := by decide

example :
    (confirm [⟨"2024-05-01", "10:00", false, none⟩]
      ⟨"2099-01-01", "00:00", "Ana", "B", "a@b.com", "Manicure"⟩
      .delivered).response = .unavailable := by decide

/-! ## Admin slot management -/

/-- HTTP-level result of POST /admin/add-slot (after the shared-secret
check has passed). `duplicateKey` is the 400 "Créneau déjà existant",
`invalidInput` the 400 "Date/heure manquantes". -/
inductive AddSlotResult
  | success
  | duplicateKey
  | invalidInput
deriving Repr, DecidableEq

/-- POST /admin/add-slot, Mongo variant (src/server.js lines 235-251,
after the authorization gate): reject a missing/empty date or time with
400 "Date/heure manquantes"; otherwise `Slot.create({date, time})`, whose
schema defaults give `booked = false` and no client record, and whose
unique index on (date,time) — `SlotSchema.index({date:1,time:1},{unique:true})`,
line 61 — makes the insert throw exactly when a slot with that key already
exists, mapped by the catch branch to 400 "Créneau déjà existant". -/
def addSlotMongo (store : Store) (date time : String) : Store × AddSlotResult :=
  if date == "" || time == "" then
    (store, .invalidInput)
  else if store.any (keyMatch date time) then
    (store, .duplicateKey)
  else
    (store ++ [⟨date, time, false, none⟩], .success)

/-- POST /admin/add-slot, file variant (part_000 lines 197-214, after the
authorization gate): no presence check and no duplicate check — the
handler unconditionally pushes `{date, time, booked: false, client: null}`
onto `data.slots` and responds `{ success: true }`. -/
def addSlotFile (store : Store) (date time : String) : Store × AddSlotResult :=
  (store ++ [⟨date, time, false, none⟩], .success)

/-- POST /admin/delete-slot, Mongo variant (src/server.js lines 256-264):
`Slot.deleteOne({date, time})` removes the (unique-index guaranteed single)
matching document if any; always responds `{ success: true }`. -/
def deleteSlotMongo (date time : String) : Store → Store
  | [] => []
  | s :: rest =>
    if keyMatch date time s then rest
    else s :: deleteSlotMongo date time rest

/-- POST /admin/delete-slot, file variant (part_000 lines 219-233):
`data.slots.filter(s => !(s.date === date && s.time === time))` removes
every matching slot; always responds `{ success: true }`. -/
def deleteSlotFile (date time : String) (store : Store) : Store :=
  store.filter (fun s => !(keyMatch date time s))

/-! ## Listing slots -/

/-- The compound sort key used by `.sort({ date: 1, time: 1 })`:
lexicographic string comparison on `date`, then on `time`. -/
def slotLE (a b : Slot) : Prop :=
  a.date < b.date ∨ (a.date = b.date ∧ a.time ≤ b.time)

instance : DecidableRel slotLE := fun a b =>
  inferInstanceAs
    (Decidable (a.date < b.date ∨ (a.date = b.date ∧ a.time ≤ b.time)))

instance : IsTotal Slot slotLE := ⟨by
  intro a b
  rcases lt_trichotomy a.date b.date with h | h | h
  · exact Or.inl (Or.inl h)
  · rcases le_total a.time b.time with h2 | h2
    · exact Or.inl (Or.inr ⟨h, h2⟩)
    · exact Or.inr (Or.inr ⟨h.symm, h2⟩)
  · exact Or.inr (Or.inl h)⟩

instance : IsTrans Slot slotLE := ⟨by
  intro a b c hab hbc
  rcases hab with h | ⟨he, ht⟩ <;> rcases hbc with h2 | ⟨he2, ht2⟩
  · exact Or.inl (lt_trans h h2)
  · exact Or.inl (by rw [← he2]; exact h)
  · exact Or.inl (by rw [he]; exact h2)
  · exact Or.inr ⟨he.trans he2, le_trans ht ht2⟩⟩

/-- GET /calendar and GET /admin/reservations, Mongo variant
(src/server.js lines 104-111 and 223-230): `Slot.find().sort({date:1,time:1})`
returns all slots ordered by date then time ascending; the sort is
embedded as a sort of the stored list by `slotLE`. -/
def listSlotsMongo (store : Store) : List Slot :=
  store.insertionSort slotLE

/-- GET /calendar and GET /admin/reservations, file variant (part_000
lines 68-71 and 185-192): `res.json(data.slots)` returns the stored array
as is, with no sorting. -/
def listSlotsFile (store : Store) : List Slot :=
  store

/-- GET /admin/reservations (both variants): rejected with 401 unless the
`authorization` header equals `ADMIN_PASSWORD`; otherwise the same slot
list the variant's calendar endpoint produces. `none` models the 401. -/
def adminReservationsFile (cfg : Config) (auth : String) (store : Store) :
    Option (List Slot) :=
  if auth == cfg.adminPassword then some (listSlotsFile store) else none

/-- GET /admin/reservations, Mongo variant (src/server.js lines 223-230):
rejected with 401 unless the `authorization` header equals
`ADMIN_PASSWORD`; otherwise the same
`Slot.find().sort({date:1,time:1})` payload the Mongo /calendar endpoint
produces. `none` models the 401. -/
def adminReservationsMongo (cfg : Config) (auth : String) (store : Store) :
    Option (List Slot) :=
  if auth == cfg.adminPassword then some (listSlotsMongo store) else none

/-! ## Payment checkout -/

/-- Characters ECMAScript `encodeURIComponent` leaves unescaped:
alphanumerics and `- _ . ! ~ * ' ( )`. -/
def isUnescaped (c : Char) : Bool :=
  c.isAlpha || c.isDigit ||
    c == '-' || c == '_' || c == '.' || c == '!' || c == '~' ||
    c == '*' || c == '\'' || c == '(' || c == ')'

/-- Uppercase hexadecimal digit for `n < 16`. -/
def hexDigit (n : Nat) : Char :=
  if n < 10 then Char.ofNat (48 + n) else Char.ofNat (55 + n)

/-- UTF-8 byte sequence of a character, as natural numbers below 256. -/
def utf8Bytes (c : Char) : List Nat :=
  let n := c.toNat
  if n < 0x80 then [n]
  else if n < 0x800 then
    [0xC0 + n / 64, 0x80 + n % 64]
  else if n < 0x10000 then
    [0xE0 + n / 4096, 0x80 + n / 64 % 64, 0x80 + n % 64]
  else
    [0xF0 + n / 262144, 0x80 + n / 4096 % 64, 0x80 + n / 64 % 64, 0x80 + n % 64]

/-- Escape of one byte as `%XX`, uppercase hex as produced by
`encodeURIComponent`. -/
def percentEscape (b : Nat) : String :=
  ⟨['%', hexDigit (b / 16), hexDigit (b % 16)]⟩

/-- ECMAScript `encodeURIComponent`: unescaped characters are kept,
every other character is replaced by the `%XX` escapes of its UTF-8
bytes. -/
def encodeURIComponent (s : String) : String :=
  String.join (s.toList.map fun c =>
    if isUnescaped c then String.singleton c
    else String.join ((utf8Bytes c).map percentEscape))

example : encodeURIComponent "Jean Paul" = "Jean%20Paul" := by decide

/-- The argument object of `stripe.checkout.sessions.create` as built by
the handlers: fixed amount/currency, description from service/date/time,
optional customer email, success and cancel redirect URLs. -/
structure SessionRequest where
  amountMinorUnits : Nat
  currency : String
  description : String
  customerEmail : Option String
  successUrl : String
  cancelUrl : String
deriving Repr, DecidableEq

/-- HTTP-level result of POST /create-checkout: 400 "Données manquantes",
or a created payment session (the handler then returns its redirect URL). -/
inductive CheckoutResult
  | invalidInput
  | session (r : SessionRequest)
deriving Repr, DecidableEq

/-- The `success_url` built by the Mongo variant (src/server.js lines
151-158): every query-parameter value goes through `encodeURIComponent`,
with `email || ""` for a missing email. -/
def successUrlMongo (cfg : Config) (i : Intent) : String :=
  cfg.frontendUrl ++ "/success.html" ++
    "?date=" ++ encodeURIComponent i.date ++
    "&time=" ++ encodeURIComponent i.time ++
    "&service=" ++ encodeURIComponent i.service ++
    "&firstName=" ++ encodeURIComponent i.firstName ++
    "&lastName=" ++ encodeURIComponent i.lastName ++
    "&email=" ++ encodeURIComponent i.email

/-- POST /create-checkout, Mongo variant (src/server.js lines 116-169):
rejects a missing/empty date, time, firstName, lastName or service with
400 "Données manquantes" (email is not checked); otherwise — without ever
consulting the slot store — creates the Stripe session with
`unit_amount: 1000`, `currency: "eur"`,
description `` `${service} | ${date} à ${time}` ``,
`customer_email: email || undefined`, the percent-encoded success URL and
the fixed cancel URL `${FRONTEND_URL}/booking.html`.  The `store` argument
is taken only to record that the handler's result does not depend on it:
no availability check is performed. -/
def createCheckoutMongo (cfg : Config) (store : Store) (i : Intent) :
    CheckoutResult :=
  if i.date == "" || i.time == "" || i.firstName == "" ||
      i.lastName == "" || i.service == "" then
    .invalidInput
  else
    .session
      { amountMinorUnits := 1000
        currency := "eur"
        description := i.service ++ " | " ++ i.date ++ " à " ++ i.time
        customerEmail := if i.email == "" then none else some i.email
        successUrl := successUrlMongo cfg i
        cancelUrl := cfg.frontendUrl ++ "/booking.html" }

/-- The `success_url` built by the file variant (part_000 lines 108-115):
only `service` goes through `encodeURIComponent`; date, time, firstName,
lastName and email are interpolated raw (`email || ""` for email). -/
def successUrlFile (cfg : Config) (i : Intent) : String :=
  cfg.frontendUrl ++ "/success.html" ++
    "?date=" ++ i.date ++
    "&time=" ++ i.time ++
    "&service=" ++ encodeURIComponent i.service ++
    "&firstName=" ++ i.firstName ++
    "&lastName=" ++ i.lastName ++
    "&email=" ++ i.email

/-- POST /create-checkout, file variant (part_000 lines 76-126): no input
validation and no slot lookup at all — the handler always creates the
Stripe session (same amount, currency, description and cancel URL as the
Mongo variant, but with the mostly-unencoded success URL). -/
def createCheckoutFile (cfg : Config) (i : Intent) : CheckoutResult :=
  .session
    { amountMinorUnits := 1000
      currency := "eur"
      description := i.service ++ " | " ++ i.date ++ " à " ++ i.time
      customerEmail := if i.email == "" then none else some i.email
      successUrl := successUrlFile cfg i
      cancelUrl := cfg.frontendUrl ++ "/booking.html" }

/-! ## Interleaving model of concurrent Mongo confirms

The Mongo variant's /confirm handler has two awaited store operations:
`const slot = await Slot.findOne({date, time})` (src/server.js line 178)
and `await slot.save()` (line 186), with the availability check
`if (!slot || slot.booked)` running synchronously on the value the read
returned.  Between the read and the write the event loop may run another
request, so one handler execution is two atomic phases against the shared
store: (read + check) and (write).  The file variant has no suspension
point between `readData()` and `writeData(data)`, so its check-and-set is
a single atomic phase; the model below is specific to src/server.js. -/

/-- Progress of one in-flight Mongo /confirm request: not yet started;
passed the availability check and about to `slot.save()`; or responded. -/
inductive ConfirmPhase
  | start
  | checkedFree
  | responded (r : ConfirmResponse)
deriving Repr, DecidableEq

/-- One atomic phase of the Mongo /confirm handler against the store:
from `start`, perform `findOne` plus the synchronous check, responding 400
on a missing or booked slot and otherwise suspending before the save;
from `checkedFree`, perform the unconditional `slot.save()` (persisting
`booked = true` and the client record) and respond success. -/
def confirmPhaseStep (i : Intent) (store : Store) :
    ConfirmPhase → Store × ConfirmPhase
  | .start =>
    match findSlot store i.date i.time with
    | none => (store, .responded .unavailable)
    | some s =>
      if s.booked then (store, .responded .unavailable)
      else (store, .checkedFree)
  | .checkedFree =>
    (updateFirst i.date i.time (bookSlot i) store, .responded .ok)
  | .responded r => (store, .responded r)

/-- Shared store plus the phases of two concurrent /confirm requests. -/
structure RaceState where
  store : Store
  phase1 : ConfirmPhase
  phase2 : ConfirmPhase
deriving Repr, DecidableEq

/-- Run a schedule over two concurrent Mongo /confirm requests: `false`
lets request 1 take its next atomic phase, `true` lets request 2. -/
def runRace (i1 i2 : Intent) : RaceState → List Bool → RaceState
  | st, [] => st
  | st, turn :: rest =>
    if turn then
      let (store', p') := confirmPhaseStep i2 st.store st.phase2
      runRace i1 i2 ⟨store', st.phase1, p'⟩ rest
    else
      let (store', p') := confirmPhaseStep i1 st.store st.phase1
      runRace i1 i2 ⟨store', p', st.phase2⟩ rest

/-! ## Operation sequences (for the store invariant) -/

/-- One store-mutating operation of the Mongo variant, as dispatched by
the HTTP handlers (after input/auth checks): admin insert, admin delete,
or a client confirm. -/
inductive Op
  | add (date time : String)
  | del (date time : String)
  | conf (i : Intent)

/-- Effect of one operation on the persisted Mongo store. -/
def applyOp (store : Store) : Op → Store
  | .add date time => (addSlotMongo store date time).1
  | .del date time => deleteSlotMongo date time store
  | .conf i => (confirm store i .delivered).store

/-- The store after a sequence of operations starting from the empty
deployment. -/
def runOps (ops : List Op) : Store :=
  ops.foldl applyOp []

/-- Effect of one operation on the persisted file-variant store. -/
def applyOpFile (store : Store) : Op → Store
  | .add date time => (addSlotFile store date time).1
  | .del date time => deleteSlotFile date time store
  | .conf i => (confirm store i .delivered).store

/-- The file-variant store after a sequence of operations starting from
the empty deployment. -/
def runOpsFile (ops : List Op) : Store :=
  ops.foldl applyOpFile []

/-- Boolean form of the slot invariant: `booked` is `true` exactly when a
client record is stored. -/
def invSlot (s : Slot) : Bool :=
  s.booked == s.client.isSome

/-- Whether a checkout call created a payment session. -/
def CheckoutResult.isSession : CheckoutResult → Bool
  | .session _ => true
  | .invalidInput => false

/-- Boolean check that no two slots of the list share a (date,time) key. -/
def uniqueKeys : Store → Bool
  | [] => true
  | s :: rest => !(rest.any (keyMatch s.date s.time)) && uniqueKeys rest

example :
    runRace ⟨"d", "t", "A", "B", "e", "S"⟩ ⟨"d", "t", "X", "Y", "z", "W"⟩
      ⟨[⟨"d", "t", false, none⟩], .start, .start⟩ [false, true, false, true]
    = ⟨[⟨"d", "t", true, some ⟨"X", "Y", "z", "W"⟩⟩],
        .responded .ok, .responded .ok⟩ := by decide

/-! ## Concrete fixtures used in witnesses and counterexamples -/

/-- A free slot, as created by admin insert. -/
def freeSlot : Slot :=
  ⟨"2024-05-01", "10:00", false, none⟩

/-- A store holding the single free slot. -/
def oneSlotStore : Store :=
  [freeSlot]

/-- Scenario A intent for the free slot. -/
def anaIntent : Intent :=
  ⟨"2024-05-01", "10:00", "Ana", "B", "a@b.com", "Manicure"⟩

/-- A second intent for the same (date,time) key with different client
fields. -/
def zoeIntent : Intent :=
  ⟨"2024-05-01", "10:00", "Zoe", "D", "z@d.com", "Pose cils"⟩

/-- The slot after being confirmed for Ana. -/
def anaSlot : Slot :=
  ⟨"2024-05-01", "10:00", true, some ⟨"Ana", "B", "a@b.com", "Manicure"⟩⟩

/-- The store after the free slot has been confirmed for Ana. -/
def bookedStore : Store :=
  [anaSlot]

/-- A concrete configuration. -/
def cfgW : Config :=
  ⟨"https://example.org", "secret"⟩

/-- An intent whose firstName contains a space (a character
`encodeURIComponent` escapes as `%20`). -/
def jeanIntent : Intent :=
  ⟨"2024-05-01", "10:00", "Jean Paul", "C", "j@c.com", "Manicure"⟩

/-- An intent with an empty (missing) firstName. -/
def noNameIntent : Intent :=
  ⟨"2024-05-01", "10:00", "", "C", "j@c.com", "Manicure"⟩

/-- A store whose slots are not in ascending (date,time) order. -/
def outOfOrderStore : Store :=
  [⟨"2024-05-02", "10:00", false, none⟩, ⟨"2024-05-01", "09:00", false, none⟩]

/-! ## Helper lemmas -/

/-- Looking up the key just updated by `updateFirst` finds the image of
the slot the lookup found before, provided `f` does not change whether a
slot matches the key. -/
theorem findSlot_updateFirst (d t : String) (f : Slot → Slot)
    (hf : ∀ s, keyMatch d t (f s) = keyMatch d t s) (store : Store) :
    findSlot (updateFirst d t f store) d t = (findSlot store d t).map f := by
  induction store with
  | nil => rfl
  | cons s rest ih =>
    by_cases h : keyMatch d t s
    · simp [updateFirst, findSlot, h, hf, List.find?_cons_of_pos]
    · simpa [updateFirst, findSlot, h, hf, List.find?_cons_of_neg] using ih

/-- Booking a slot leaves its (date,time) key unchanged. -/
theorem keyMatch_bookSlot (d t : String) (i : Intent) (s : Slot) :
    keyMatch d t (bookSlot i s) = keyMatch d t s := rfl

/-- Boolean string equality is symmetric. -/
theorem strBeq_symm (x y : String) : (x == y) = (y == x) := by
  by_cases h : x = y
  · subst h; rfl
  · have h' : ¬y = x := fun hh => h hh.symm
    simp [h, h']

/-- Matching on the other slot's key is symmetric. -/
theorem keyMatch_symm (a b : Slot) :
    keyMatch a.date a.time b = keyMatch b.date b.time a := by
  simp only [keyMatch]
  rw [strBeq_symm b.date a.date, strBeq_symm b.time a.time]

/-- Appending a slot whose key is absent from the store preserves key
uniqueness. -/
theorem uniqueKeys_append_new (s : Slot) (store : Store)
    (h : store.any (keyMatch s.date s.time) = false)
    (hu : uniqueKeys store = true) :
    uniqueKeys (store ++ [s]) = true := by
  induction store with
  | nil => simp [uniqueKeys]
  | cons a rest ih =>
    simp only [List.any_cons, Bool.or_eq_false_iff] at h
    simp only [uniqueKeys, Bool.and_eq_true, Bool.not_eq_true'] at hu
    rw [List.cons_append]
    simp only [uniqueKeys, Bool.and_eq_true, Bool.not_eq_true']
    refine ⟨?_, ih h.2 hu.2⟩
    simp only [List.any_append, List.any_cons, List.any_nil,
      Bool.or_eq_false_iff, Bool.or_false]
    exact ⟨hu.1, by rw [keyMatch_symm a s]; exact h.1⟩

/-- Overwriting position `n` (which holds `s`) with a different slot `s'`
raises the number of occurrences of `s'` by one, so the new list can be
no permutation of the old one. -/
theorem count_set_succ (s s' : Slot) (hne : s' ≠ s) :
    ∀ (store : Store) (n : Nat), store[n]? = some s →
      (store.set n s').count s' = store.count s' + 1 := by
  intro store
  induction store with
  | nil =>
    intro n hn
    simp at hn
  | cons a rest ih =>
    intro n hn
    cases n with
    | zero =>
      simp only [List.getElem?_cons_zero, Option.some.injEq] at hn
      subst hn
      have ha : (a == s') = false := by
        simp only [beq_eq_false_iff_ne]
        exact fun h => hne (h.symm)
      have hs' : (s' == s') = true := by simp
      simp [List.set, List.count_cons, ha, hs']
    | succ m =>
      simp only [List.getElem?_cons_succ] at hn
      simp only [List.set, List.count_cons, ih m hn]
      omega

/-- A pointwise-guaranteed update keeps a property that holds of all
slots. -/
theorem all_updateFirst (d t : String) (f : Slot → Slot) (p : Slot → Bool)
    (hf : ∀ s, p (f s) = true) :
    ∀ store : Store, store.all p = true →
      (updateFirst d t f store).all p = true := by
  intro store
  induction store with
  | nil => exact fun h => h
  | cons s rest ih =>
    intro h
    simp only [List.all_cons, Bool.and_eq_true] at h
    simp only [updateFirst]
    split_ifs with hk
    · simp only [List.all_cons, Bool.and_eq_true]
      exact ⟨hf s, h.2⟩
    · simp only [List.all_cons, Bool.and_eq_true]
      exact ⟨h.1, ih h.2⟩

/-- Deleting one slot keeps a property that holds of all slots. -/
theorem all_deleteSlotMongo (d t : String) (p : Slot → Bool) :
    ∀ store : Store, store.all p = true →
      (deleteSlotMongo d t store).all p = true := by
  intro store
  induction store with
  | nil => exact fun h => h
  | cons s rest ih =>
    intro h
    simp only [List.all_cons, Bool.and_eq_true] at h
    simp only [deleteSlotMongo]
    split_ifs with hk
    · exact h.2
    · simp only [List.all_cons, Bool.and_eq_true]
      exact ⟨h.1, ih h.2⟩

/-- Filtering keeps a property that holds of all slots. -/
theorem all_filter_of_all (p q : Slot → Bool) (store : Store)
    (h : store.all p = true) : (store.filter q).all p = true := by
  rw [List.all_eq_true] at h ⊢
  intro x hx
  exact h x (List.mem_filter.mp hx).1

/-- Appending a slot satisfying `p` keeps `p` holding of all slots. -/
theorem all_append_fresh (p : Slot → Bool) (store : Store) (s : Slot)
    (hs : p s = true) (h : store.all p = true) :
    (store ++ [s]).all p = true := by
  rw [List.all_append]
  simp [h, hs]

/-- A /confirm call keeps the booked-iff-client invariant on every slot. -/
theorem all_invSlot_confirm (store : Store) (i : Intent) (m : MailOutcome)
    (h : store.all invSlot = true) :
    (confirm store i m).store.all invSlot = true := by
  cases hf : findSlot store i.date i.time with
  | none => simpa [confirm, hf] using h
  | some s =>
    by_cases hb : s.booked
    · simpa [confirm, hf, hb] using h
    · simpa [confirm, hf, hb] using
        all_updateFirst i.date i.time (bookSlot i) invSlot (fun _ => rfl) store h

/-- Any Mongo-variant operation sequence keeps the invariant. -/
theorem all_invSlot_foldl (ops : List Op) :
    ∀ store : Store, store.all invSlot = true →
      (ops.foldl applyOp store).all invSlot = true := by
  induction ops with
  | nil => exact fun _ h => h
  | cons op rest ih =>
    intro store h
    apply ih
    cases op with
    | add d t =>
      simp only [applyOp, addSlotMongo]
      split_ifs with h1 h2
      · exact h
      · exact h
      · exact all_append_fresh invSlot store ⟨d, t, false, none⟩ rfl h
    | del d t => exact all_deleteSlotMongo d t invSlot store h
    | conf i => exact all_invSlot_confirm store i .delivered h

/-- Any file-variant operation sequence keeps the invariant. -/
theorem all_invSlot_foldl_file (ops : List Op) :
    ∀ store : Store, store.all invSlot = true →
      (ops.foldl applyOpFile store).all invSlot = true := by
  induction ops with
  | nil => exact fun _ h => h
  | cons op rest ih =>
    intro store h
    apply ih
    cases op with
    | add d t => exact all_append_fresh invSlot store ⟨d, t, false, none⟩ rfl h
    | del d t => exact all_filter_of_all invSlot _ store h
    | conf i => exact all_invSlot_confirm store i .delivered h

/-! ## Claims -/

/-- C1: a /confirm call on an existing slot with `booked = false` sets
that slot's `booked` to `true` and its client record to
{firstName, lastName, email, service}, persists the change and responds
success; if the slot does not exist or is already booked the call responds
with the single `unavailable` (400 "Créneau indisponible") answer, so both
failure causes are reported identically and the store is untouched; and a
second confirm on the same (date,time) key after a successful one responds
`unavailable` and leaves the stored data — in particular the client
record — unchanged. -/
theorem confirm_correct (store : Store) (i i2 : Intent) (m m2 : MailOutcome)
    (hd : i2.date = i.date) (ht : i2.time = i.time) :
    (∀ s, findSlot store i.date i.time = some s → s.booked = false →
      (confirm store i m).response = .ok ∧
      findSlot (confirm store i m).store i.date i.time
        = some { s with booked := true, client := some (clientOf i) } ∧
      (confirm (confirm store i m).store i2 m2).response = .unavailable ∧
      (confirm (confirm store i m).store i2 m2).store = (confirm store i m).store) ∧
    ((findSlot store i.date i.time = none ∨
        (∃ s, findSlot store i.date i.time = some s ∧ s.booked = true)) →
      (confirm store i m).response = .unavailable ∧
      (confirm store i m).store = store) := by
  constructor
  · intro s hs hb
    have hup :
        findSlot (updateFirst i.date i.time (bookSlot i) store) i.date i.time
          = some (bookSlot i s) := by
      rw [findSlot_updateFirst i.date i.time (bookSlot i)
        (keyMatch_bookSlot i.date i.time i) store, hs, Option.map_some']
    have hc1 : confirm store i m
        = ⟨updateFirst i.date i.time (bookSlot i) store, .ok, i.email != ""⟩ := by
      simp [confirm, hs, hb]
    refine ⟨by rw [hc1], ?_, ?_, ?_⟩
    · rw [hc1]
      exact hup
    · rw [hc1]
      simp [confirm, hd, ht, hup, bookSlot]
    · rw [hc1]
      simp [confirm, hd, ht, hup, bookSlot]
  · rintro (hnone | ⟨s, hs, hb⟩)
    · exact ⟨by simp [confirm, hnone], by simp [confirm, hnone]⟩
    · exact ⟨by simp [confirm, hs, hb], by simp [confirm, hs, hb]⟩

/-- Witness for C1 at Scenario A: confirming the free slot succeeds and
stores Ana's record; an immediately repeated confirm (same key, different
client fields) is rejected and changes nothing. -/
theorem confirm_correct_witness :
    zoeIntent.date = anaIntent.date ∧
    zoeIntent.time = anaIntent.time ∧
    findSlot oneSlotStore anaIntent.date anaIntent.time = some freeSlot ∧
    freeSlot.booked = false ∧
    (confirm oneSlotStore anaIntent .delivered).response = .ok ∧
    findSlot (confirm oneSlotStore anaIntent .delivered).store
        anaIntent.date anaIntent.time
      = some ⟨"2024-05-01", "10:00", true, some ⟨"Ana", "B", "a@b.com", "Manicure"⟩⟩ ∧
    (confirm (confirm oneSlotStore anaIntent .delivered).store
        zoeIntent .delivered).response = .unavailable ∧
    (confirm (confirm oneSlotStore anaIntent .delivered).store
        zoeIntent .delivered).store
      = (confirm oneSlotStore anaIntent .delivered).store := by
  have h := (confirm_correct oneSlotStore anaIntent zoeIntent
    .delivered .delivered rfl rfl).1 freeSlot (by decide) (by decide)
  exact ⟨rfl, rfl, by decide, by decide, h.1, h.2.1, h.2.2.1, h.2.2.2⟩

/-- C2: the Mongo /confirm transition is NOT an atomic compare-and-swap.
Because `Slot.findOne` and `slot.save()` are separate awaited store
operations with the availability check in between, the schedule
read₁, read₂, write₁, write₂ over one free slot lets two concurrent
confirms for the same (date,time) key both respond success (and the
second write silently overwrites the first client record), contradicting
the claimed "exactly one success and N−1 SlotUnavailable failures". -/
theorem confirm_race_double_success :
    (runRace anaIntent zoeIntent ⟨oneSlotStore, .start, .start⟩
        [false, true, false, true]).phase1 = .responded .ok ∧
    (runRace anaIntent zoeIntent ⟨oneSlotStore, .start, .start⟩
        [false, true, false, true]).phase2 = .responded .ok ∧
    (runRace anaIntent zoeIntent ⟨oneSlotStore, .start, .start⟩
        [false, true, false, true]).store
      = [⟨"2024-05-01", "10:00", true, some ⟨"Zoe", "D", "z@d.com", "Pose cils"⟩⟩] := by
  decide

/-- C3: the Mongo /create-checkout handler performs no `findSlot`
availability check at all: its result is independent of the store, and
for an intent whose (date,time) names an already-booked slot it still
creates an external payment session instead of returning SlotUnavailable
(the handler has no slot-unavailable answer to give). -/
theorem createCheckout_ignores_slot_state :
    (∀ store store' : Store,
      createCheckoutMongo cfgW store jeanIntent
        = createCheckoutMongo cfgW store' jeanIntent) ∧
    (createCheckoutMongo cfgW bookedStore jeanIntent).isSession = true := by
  exact ⟨fun _ _ => rfl, by decide⟩

/-- C4 counterexample: the file variant's /admin/add-slot performs no
duplicate check — inserting the already-present key
("2024-05-01","10:00") responds success (not DuplicateKey), changes the
store, and leaves two slots with the same (date,time) key. -/
theorem addSlotFile_duplicate_succeeds :
    (addSlotFile oneSlotStore "2024-05-01" "10:00").2 = .success ∧
    (addSlotFile oneSlotStore "2024-05-01" "10:00").1 ≠ oneSlotStore ∧
    (addSlotFile oneSlotStore "2024-05-01" "10:00").1.countP
      (keyMatch "2024-05-01" "10:00") = 2 := by
  decide

/-- C4 amended: in the Mongo variant, an /admin/add-slot call with
non-empty date and time whose (date,time) key already exists always fails
with DuplicateKey (400 "Créneau déjà existant") and leaves the store
unchanged; and every /admin/add-slot call preserves uniqueness of the
(date,time) key across the store. -/
theorem addSlotMongo_duplicate (store : Store) (d t : String) :
    (d ≠ "" → t ≠ "" → store.any (keyMatch d t) = true →
      addSlotMongo store d t = (store, .duplicateKey)) ∧
    (uniqueKeys store = true → uniqueKeys (addSlotMongo store d t).1 = true) := by
  constructor
  · intro hd ht hdup
    simp [addSlotMongo, hd, ht, hdup]
  · intro hu
    simp only [addSlotMongo]
    split_ifs with h1 h2
    · exact hu
    · exact hu
    · exact uniqueKeys_append_new ⟨d, t, false, none⟩ store
        (by simp only [Bool.not_eq_true] at h2; exact h2) hu

/-- Witness for C4's amended theorem: adding the key of the one stored
slot again fails with DuplicateKey and leaves the store unchanged, and
key uniqueness is preserved. -/
theorem addSlotMongo_duplicate_witness :
    ("2024-05-01" : String) ≠ "" ∧ ("10:00" : String) ≠ "" ∧
    oneSlotStore.any (keyMatch "2024-05-01" "10:00") = true ∧
    addSlotMongo oneSlotStore "2024-05-01" "10:00"
      = (oneSlotStore, .duplicateKey) ∧
    uniqueKeys oneSlotStore = true ∧
    uniqueKeys (addSlotMongo oneSlotStore "2024-05-01" "10:00").1 = true := by
  refine ⟨by decide, by decide, by decide, ?_, by decide, ?_⟩
  · exact (addSlotMongo_duplicate oneSlotStore "2024-05-01" "10:00").1
      (by decide) (by decide) (by decide)
  · exact (addSlotMongo_duplicate oneSlotStore "2024-05-01" "10:00").2
      (by decide)

/-- C5: after any sequence of operations (admin insert, admin delete,
client confirm) from the empty deployment — in either variant — every
persisted slot satisfies booked == true iff its client record is
non-null: slots are created with booked=false and no client record,
delete only removes slots, and confirm is the only operation writing
either field, setting booked=true and the client record together. -/
theorem store_invariant (ops : List Op) :
    (runOps ops).all invSlot = true ∧ (runOpsFile ops).all invSlot = true :=
  ⟨all_invSlot_foldl ops [] rfl, all_invSlot_foldl_file ops [] rfl⟩

/-- C6 counterexample: the file variant's /calendar (and
/admin/reservations) returns the stored array verbatim with no sorting —
on a store whose slots are out of (date,time) order the response is not
sorted. -/
theorem listSlotsFile_unsorted :
    listSlotsFile outOfOrderStore = outOfOrderStore ∧
    ¬ List.Sorted slotLE (listSlotsFile outOfOrderStore) := by
  refine ⟨rfl, fun hs => ?_⟩
  simp only [listSlotsFile, outOfOrderStore] at hs
  have h := (List.sorted_cons.mp hs).1 ⟨"2024-05-01", "09:00", false, none⟩
    (by simp)
  simp only [slotLE] at h
  rcases h with h | ⟨he, _⟩
  · revert h
    simp
    decide
  · exact absurd he (by decide)

/-- C6 amended: the Mongo variant's /calendar and /admin/reservations
listing returns exactly the persisted slots (a permutation of the store)
sorted ascending by the string comparison on date and then time. -/
theorem listSlotsMongo_sorted (store : Store) :
    List.Sorted slotLE (listSlotsMongo store) ∧
      (listSlotsMongo store).Perm store :=
  ⟨List.sorted_insertionSort slotLE store, List.perm_insertionSort slotLE store⟩

/-- C7 counterexample: the file variant's /create-checkout performs no
input validation at all: with an empty (missing) firstName it still
creates the external payment session instead of failing with
InvalidInput. -/
theorem createCheckoutFile_no_validation :
    (createCheckoutFile cfgW noNameIntent).isSession = true := by
  decide

/-- C7 amended: in the Mongo variant a /create-checkout call fails with
InvalidInput (400 "Données manquantes", before any payment session is
built) exactly when date, time, firstName, lastName or service is
missing/empty — an absent email alone never causes failure; the file
variant checks nothing and always creates the session. -/
theorem createCheckoutMongo_validation (cfg : Config) (store : Store)
    (i : Intent) :
    (createCheckoutMongo cfg store i = .invalidInput ↔
      (i.date = "" ∨ i.time = "" ∨ i.firstName = "" ∨
        i.lastName = "" ∨ i.service = "")) ∧
    (createCheckoutFile cfg i).isSession = true := by
  refine ⟨?_, rfl⟩
  unfold createCheckoutMongo
  split_ifs with h
  · simp only [Bool.or_eq_true, beq_iff_eq] at h
    exact iff_of_true rfl (by tauto)
  · refine iff_of_false (fun hcon => nomatch hcon) ?_
    simp only [Bool.or_eq_true, beq_iff_eq] at h
    tauto

/-- C8 counterexample: the file variant's successful checkout does not
percent-encode its query parameters (only service is encoded): for a
firstName containing a space the session is created with the raw
"Jean Paul" in the success URL, while the percent-encoded embedding would
carry "Jean%20Paul" — so not every successful call embeds each value
percent-encoded. -/
theorem createCheckoutFile_unencoded_url :
    (createCheckoutFile cfgW jeanIntent).isSession = true ∧
    successUrlFile cfgW jeanIntent =
      "https://example.org/success.html?date=2024-05-01&time=10:00&service=Manicure&firstName=Jean Paul&lastName=C&email=j@c.com" ∧
    encodeURIComponent "Jean Paul" = "Jean%20Paul" ∧
    successUrlFile cfgW jeanIntent ≠ successUrlMongo cfgW jeanIntent := by
  refine ⟨rfl, by decide, by decide, by decide⟩

/-- C8 amended: in the Mongo variant, every /create-checkout call whose
required fields are non-empty creates the payment session with the fixed
deposit amount of 1000 minor units in EUR, the description
`service | date à time`, the fixed cancel-redirect URL
`FRONTEND_URL/booking.html`, and a success-redirect URL in which date,
time, service, firstName, lastName and email are each embedded as
percent-encoded query parameters; the file variant percent-encodes only
the service parameter. -/
theorem createCheckoutMongo_session (cfg : Config) (store : Store)
    (i : Intent) (hd : i.date ≠ "") (ht : i.time ≠ "")
    (hf : i.firstName ≠ "") (hl : i.lastName ≠ "") (hs : i.service ≠ "") :
    createCheckoutMongo cfg store i = .session
      { amountMinorUnits := 1000
        currency := "eur"
        description := i.service ++ " | " ++ i.date ++ " à " ++ i.time
        customerEmail := if i.email == "" then none else some i.email
        successUrl :=
          cfg.frontendUrl ++ "/success.html" ++
            "?date=" ++ encodeURIComponent i.date ++
            "&time=" ++ encodeURIComponent i.time ++
            "&service=" ++ encodeURIComponent i.service ++
            "&firstName=" ++ encodeURIComponent i.firstName ++
            "&lastName=" ++ encodeURIComponent i.lastName ++
            "&email=" ++ encodeURIComponent i.email
        cancelUrl := cfg.frontendUrl ++ "/booking.html" } := by
  simp [createCheckoutMongo, successUrlMongo, hd, ht, hf, hl, hs]

/-- Witness for C8's amended theorem: the session built for Jean Paul's
intent, with the colon, space and at-sign percent-encoded in the success
URL. -/
theorem createCheckoutMongo_session_witness :
    jeanIntent.date ≠ "" ∧ jeanIntent.time ≠ "" ∧
    jeanIntent.firstName ≠ "" ∧ jeanIntent.lastName ≠ "" ∧
    jeanIntent.service ≠ "" ∧
    createCheckoutMongo cfgW oneSlotStore jeanIntent = .session
      { amountMinorUnits := 1000
        currency := "eur"
        description := "Manicure | 2024-05-01 à 10:00"
        customerEmail := some "j@c.com"
        successUrl :=
          "https://example.org/success.html?date=2024-05-01&time=10%3A00&service=Manicure&firstName=Jean%20Paul&lastName=C&email=j%40c.com"
        cancelUrl := "https://example.org/booking.html" } := by
  have h := createCheckoutMongo_session cfgW oneSlotStore jeanIntent
    (by decide) (by decide) (by decide) (by decide) (by decide)
  refine ⟨by decide, by decide, by decide, by decide, by decide, ?_⟩
  rw [h]
  decide

/-- C9: once the slot transition of a /confirm call has been persisted
(the slot was found and was free), the call responds success for every
mail outcome — a transport error is caught and logged, never propagated
to the caller, and never rolls back the persisted transition (the
resulting store does not depend on the mail outcome) — and the
notification step is attempted exactly when the intent's email is
non-empty, so an empty email makes it a no-op. -/
theorem confirm_notification (store : Store) (i : Intent)
    (m m' : MailOutcome) (s : Slot)
    (hs : findSlot store i.date i.time = some s) (hb : s.booked = false) :
    (confirm store i m).response = .ok ∧
    (confirm store i m).store = (confirm store i m').store ∧
    (i.email = "" → (confirm store i m).mailAttempted = false) ∧
    (i.email ≠ "" → (confirm store i m).mailAttempted = true) := by
  have hc : ∀ mm : MailOutcome, confirm store i mm
      = ⟨updateFirst i.date i.time (bookSlot i) store, .ok, i.email != ""⟩ := by
    intro mm
    simp [confirm, hs, hb]
  rw [hc m, hc m']
  refine ⟨rfl, rfl, ?_, ?_⟩
  · intro he
    simp [he]
  · intro he
    simp [he]

/-- Witness for C9: confirming Ana's intent with a failing mail transport
still responds success, persists the same store a delivered mail would,
and attempts the send since her email is non-empty. -/
theorem confirm_notification_witness :
    findSlot oneSlotStore anaIntent.date anaIntent.time = some freeSlot ∧
    freeSlot.booked = false ∧
    (confirm oneSlotStore anaIntent .transportError).response = .ok ∧
    (confirm oneSlotStore anaIntent .transportError).store
      = (confirm oneSlotStore anaIntent .delivered).store ∧
    (confirm oneSlotStore anaIntent .transportError).mailAttempted = true := by
  have h := confirm_notification oneSlotStore anaIntent
    .transportError .delivered freeSlot (by decide) (by decide)
  exact ⟨by decide, by decide, h.1, h.2.1, h.2.2.2 (by decide)⟩

/-- C10: the unauthenticated /calendar response is the full stored slot
list — the very same payload the shared-secret-gated /admin/reservations
returns on a correct secret — including the embedded client record of
booked slots; consequently two stores that differ only in a booked slot's
client record produce different /calendar responses, so client personal
data is not confidential from unauthenticated callers. -/
theorem calendar_leaks_client (cfg : Config) (store : Store) (n : Nat)
    (s : Slot) (c : Client)
    (hn : store[n]? = some s) (hb : s.booked = true)
    (hc : some c ≠ s.client) :
    (listSlotsFile store = store ∧
      adminReservationsFile cfg cfg.adminPassword store
        = some (listSlotsFile store) ∧
      listSlotsFile (store.set n { s with client := some c })
        ≠ listSlotsFile store) ∧
    ((listSlotsMongo store).Perm store ∧
      adminReservationsMongo cfg cfg.adminPassword store
        = some (listSlotsMongo store) ∧
      listSlotsMongo (store.set n { s with client := some c })
        ≠ listSlotsMongo store) := by
  constructor
  · refine ⟨rfl, by simp [adminReservationsFile], ?_⟩
    intro he
    simp only [listSlotsFile] at he
    have h1 : (store.set n { s with client := some c })[n]?
        = some { s with client := some c } := by
      rw [List.getElem?_set_self', hn]
      rfl
    rw [he, hn] at h1
    have h2 : s.client = some c := congrArg Slot.client (Option.some.inj h1)
    exact hc h2.symm
  · refine ⟨List.perm_insertionSort slotLE store,
      by simp [adminReservationsMongo], ?_⟩
    intro he
    have hne : ({ s with client := some c } : Slot) ≠ s := by
      intro h
      exact hc (congrArg Slot.client h)
    have hp1 : (listSlotsMongo (store.set n { s with client := some c })).Perm
        (store.set n { s with client := some c }) :=
      List.perm_insertionSort slotLE _
    have hp2 : (listSlotsMongo store).Perm store :=
      List.perm_insertionSort slotLE store
    have h3 : (listSlotsMongo (store.set n { s with client := some c })).Perm
        store := by
      rw [he]
      exact hp2
    have hperm : (store.set n { s with client := some c }).Perm store :=
      hp1.symm.trans h3
    have hcount := hperm.count_eq { s with client := some c }
    rw [count_set_succ s { s with client := some c } hne store n hn] at hcount
    omega

/-- Witness for C10: replacing Ana's client record by Zoe's on the booked
slot changes the unauthenticated /calendar response of both variants,
and each variant's /calendar payload is the one its admin listing
returns. -/
theorem calendar_leaks_client_witness :
    bookedStore[0]? = some anaSlot ∧
    anaSlot.booked = true ∧
    some (clientOf zoeIntent) ≠ anaSlot.client ∧
    listSlotsFile bookedStore = bookedStore ∧
    adminReservationsFile cfgW cfgW.adminPassword bookedStore
      = some (listSlotsFile bookedStore) ∧
    listSlotsFile
        (bookedStore.set 0 { anaSlot with client := some (clientOf zoeIntent) })
      ≠ listSlotsFile bookedStore ∧
    (listSlotsMongo bookedStore).Perm bookedStore ∧
    adminReservationsMongo cfgW cfgW.adminPassword bookedStore
      = some (listSlotsMongo bookedStore) ∧
    listSlotsMongo
        (bookedStore.set 0 { anaSlot with client := some (clientOf zoeIntent) })
      ≠ listSlotsMongo bookedStore := by
  have h := calendar_leaks_client cfgW bookedStore 0 anaSlot
    (clientOf zoeIntent) (by decide) (by decide) (by decide)
  exact ⟨by decide, by decide, by decide, h.1.1, h.1.2.1, h.1.2.2,
    h.2.1, h.2.2.1, h.2.2.2⟩
